import Mathlib

/-!
Verification of the rust-gameboy emulator core: a shallow embedding of
`src/regset.rs` (the register file with 8-bit aliasing), the parts of
`src/cpu.rs` reachable from the verified claims (stack push/pop, CP, INC,
DEC, LD, CALL, RET, BIT and the interrupt-bit accessors), and the pixel
timing state machine of `src/gpu.rs`.

Machine integers are modelled as `Nat` with explicit reductions: a `u8`
value is kept below 256 and a `u16` value below 65536; wrapping
arithmetic on `u16` is written `(x + 65536 - y) % 65536` and shifts keep
the `% 65536` reduction the Rust type performs.  The `BitVec` crate used
by the source indexes bits from the most significant end of a byte, so
`flags.get(i)`/`flags.set(i, b)` act on bit `7 - i` of the byte; the
helpers `bvGet`/`bvSet` reproduce that convention.
-/

namespace RustGameboy

/-! ## Memory: `GBMem` from `src/mem.rs`.

The store is a `Vec<u8>`; the byte typing of its cells is expressed by
the `% 256` reduction in `get`/`put` (an identity on every value a real
`Vec<u8>` can hold). -/

structure GBMem where
  map : Nat → Nat

def GBMem.get (m : GBMem) (pos : Nat) : Nat := m.map pos % 256

def GBMem.put (m : GBMem) (pos byte : Nat) : GBMem :=
  ⟨fun p => if p = pos then byte % 256 else m.map p⟩

/-! ## Register set: `GBRegisterSet` from `src/regset.rs`.

The Rust code stores registers in a `HashMap<String, RegisterWrapper>`;
we model the map as an association list looked up by key.  `new` called
with `["AF", "BC", "DE", "HL"]` (the only call, `src/cpu.rs:35`) builds
one `Raw` entry per 16-bit name plus a `Pointer` entry for each
single-letter half (right char at position 0, left char at position 1);
`gbMap` is that map with the `Raw` payloads left symbolic, which covers
every reachable register-set state since mutation only ever rewrites
`Raw` payloads. -/

inductive RegisterWrapper where
  | Pointer (origin : String) (position : Nat)
  | Raw (data : Nat)
deriving DecidableEq

abbrev RegMap := List (String × RegisterWrapper)

def gbMap (af bc de hl : Nat) : RegMap :=
  [("AF", RegisterWrapper.Raw af),
   ("F", RegisterWrapper.Pointer "AF" 0),
   ("A", RegisterWrapper.Pointer "AF" 1),
   ("BC", RegisterWrapper.Raw bc),
   ("C", RegisterWrapper.Pointer "BC" 0),
   ("B", RegisterWrapper.Pointer "BC" 1),
   ("DE", RegisterWrapper.Raw de),
   ("E", RegisterWrapper.Pointer "DE" 0),
   ("D", RegisterWrapper.Pointer "DE" 1),
   ("HL", RegisterWrapper.Raw hl),
   ("L", RegisterWrapper.Pointer "HL" 0),
   ("H", RegisterWrapper.Pointer "HL" 1)]

/-- The key set of `gbMap`, i.e. every register name present in the map. -/
def regNames : List String :=
  ["AF", "F", "A", "BC", "C", "B", "DE", "E", "D", "HL", "L", "H"]

/-- `get16` from `src/regset.rs:42-59`, with a fuel bound on the
recursion through `Pointer` entries.  In the program's map every pointer
chain has depth 1, so fuel 2 computes the same value the unbounded Rust
recursion does; the `None` branch logs and returns 0 (line 55). -/
def get16F : Nat → RegMap → String → Nat
  | 0, _, _ => 0
  | fuel + 1, regs, reg =>
    match regs.lookup reg with
    | some (RegisterWrapper.Pointer og pos) => get16F fuel regs og >>> (8 * pos)
    | some (RegisterWrapper.Raw data) => data
    | none => 0

def get16 (regs : RegMap) (reg : String) : Nat := get16F 2 regs reg

/-- `get8` from `src/regset.rs:61-65`: `get16` truncated by the `as u8`
cast. -/
def get8 (regs : RegMap) (reg : String) : Nat := get16 regs reg % 256

/-- Rewrite the wrapper stored under `key` (the effect of the
`get_mut` + assignment in `put8`/`put16`). -/
def updateVal (regs : RegMap) (key : String) (v : RegisterWrapper) : RegMap :=
  regs.map fun p => if p.1 = key then (key, v) else p

/-- One iteration of the `'search` loop of `put8`
(`src/regset.rs:71-100`): a `Pointer` entry redirects the search, a
`Raw` entry masks the half selected by `targetPos` and stores the
shifted data, and the `None` branch only logs, leaving the loop state
unchanged — the loop then repeats forever. -/
def put8Once (regs : RegMap) (data : Nat) (cur : String) (tpos : Nat) :
    (String × Nat) ⊕ RegMap :=
  match regs.lookup cur with
  | some (RegisterWrapper.Pointer og pos) => Sum.inl (og, pos)
  | some (RegisterWrapper.Raw d) =>
      let target_mask := 65280 >>> (8 * tpos)
      let data_shifted := (data <<< (8 * tpos)) % 65536
      Sum.inr (updateVal regs cur (RegisterWrapper.Raw ((d &&& target_mask) ||| data_shifted)))
  | none => Sum.inl (cur, tpos)

/-- The `put8` loop run with fuel; `none` means the fuel ran out before
the loop hit its `break`. -/
def put8F : Nat → RegMap → Nat → String → Nat → Option RegMap
  | 0, _, _, _, _ => none
  | fuel + 1, regs, data, cur, tpos =>
    match put8Once regs data cur tpos with
    | Sum.inl (c, p) => put8F fuel regs data c p
    | Sum.inr r => some r

/-- `put8` from `src/regset.rs:67-102`: the loop starts at the requested
name with `targetPos = 0`; fuel 2 suffices for every name present in the
program's map. -/
def put8 (regs : RegMap) (reg : String) (data : Nat) : Option RegMap :=
  put8F 2 regs data reg 0

/-- One iteration of the `'search` loop of `put16`
(`src/regset.rs:108-131`): like `put8` but the `Raw` branch replaces the
slot value outright. -/
def put16Once (regs : RegMap) (data : Nat) (cur : String) (tpos : Nat) :
    (String × Nat) ⊕ RegMap :=
  match regs.lookup cur with
  | some (RegisterWrapper.Pointer og pos) => Sum.inl (og, pos)
  | some (RegisterWrapper.Raw _) =>
      Sum.inr (updateVal regs cur (RegisterWrapper.Raw data))
  | none => Sum.inl (cur, tpos)

def put16F : Nat → RegMap → Nat → String → Nat → Option RegMap
  | 0, _, _, _, _ => none
  | fuel + 1, regs, data, cur, tpos =>
    match put16Once regs data cur tpos with
    | Sum.inl (c, p) => put16F fuel regs data c p
    | Sum.inr r => some r

/-- `put16` from `src/regset.rs:104-133`. -/
def put16 (regs : RegMap) (reg : String) (data : Nat) : Option RegMap :=
  put16F 2 regs data reg 0

/-! ## Register dispatcher used by the CPU handlers.

`src/cpu.rs` accesses the register set through `registers.get(&name)` and
`registers.put(&name, value)`, methods whose definitions are not part of
the sources under `src/` (only `get16`/`get8`/`put8`/`put16` are).  They
are modelled here from the spec's RegisterFile contract (§4.1), with the
four 16-bit slots as concrete fields. -/

structure RegFile where
  af : Nat
  bc : Nat
  de : Nat
  hl : Nat
deriving DecidableEq

/-- Modelled from the spec: `read(name) -> u16` "returns the full value
if `name` is a 16-bit slot, or the unsigned zero-extended value of the
aliased 8-bit half if `name` is a single-letter alias" (§4.1).  This is
the `registers.get` method called throughout `src/cpu.rs` but absent
from `src/regset.rs`.  The final arm is unreachable for the names the
dispatch table uses. -/
def RegFile.read (r : RegFile) (name : String) : Nat :=
  match name with
  | "AF" => r.af
  | "BC" => r.bc
  | "DE" => r.de
  | "HL" => r.hl
  | "A" => r.af >>> 8
  | "F" => r.af % 256
  | "B" => r.bc >>> 8
  | "C" => r.bc % 256
  | "D" => r.de >>> 8
  | "E" => r.de % 256
  | "H" => r.hl >>> 8
  | "L" => r.hl % 256
  | _ => 0

/-- Modelled from the spec: `write(name, value)` "for a 16-bit slot
name, replaces the slot outright; for an 8-bit alias name, masks and
shifts `value` into only that half, preserving the other half" (§4.1).
This is the `registers.put` method called throughout `src/cpu.rs` but
absent from `src/regset.rs`. -/
def RegFile.write (r : RegFile) (name : String) (v : Nat) : RegFile :=
  match name with
  | "AF" => { r with af := v % 65536 }
  | "BC" => { r with bc := v % 65536 }
  | "DE" => { r with de := v % 65536 }
  | "HL" => { r with hl := v % 65536 }
  | "A" => { r with af := ((v % 256) <<< 8) ||| (r.af % 256) }
  | "F" => { r with af := ((r.af >>> 8) <<< 8) ||| (v % 256) }
  | "B" => { r with bc := ((v % 256) <<< 8) ||| (r.bc % 256) }
  | "C" => { r with bc := ((r.bc >>> 8) <<< 8) ||| (v % 256) }
  | "D" => { r with de := ((v % 256) <<< 8) ||| (r.de % 256) }
  | "E" => { r with de := ((r.de >>> 8) <<< 8) ||| (v % 256) }
  | "H" => { r with hl := ((v % 256) <<< 8) ||| (r.hl % 256) }
  | "L" => { r with hl := ((r.hl >>> 8) <<< 8) ||| (v % 256) }
  | _ => r

/-! ## CPU state and helpers from `src/cpu.rs`.

`last_op_cycles` and the static cycle-cost table are not modelled: the
cycle lookups in the handlers only set `last_op_cycles`, which no
modelled claim reads (the timing automaton below takes the cycle count
as an explicit argument, as claim C4 stipulates the increments). -/

structure GBCpuSt where
  sp : Nat
  pc : Nat
  mem : GBMem
  regs : RegFile

/-- `stack_push` from `src/cpu.rs:99-109`: `sp` pre-decrements (u16
wrapping) for the high byte, then again for the low byte. -/
def stack_push (s : GBCpuSt) (value : Nat) : GBCpuSt :=
  let sp1 := (s.sp + 65535) % 65536
  let m1 := s.mem.put sp1 ((value >>> 8) % 256)
  let sp2 := (sp1 + 65535) % 65536
  let m2 := m1.put sp2 (value % 256)
  { s with sp := sp2, mem := m2 }

/-- `stack_pop` from `src/cpu.rs:111-121`: low byte at `sp`, high byte
at `sp + 1`, `sp` post-incremented twice. -/
def stack_pop (s : GBCpuSt) : Nat × GBCpuSt :=
  let v1 := s.mem.get s.sp
  let sp1 := (s.sp + 1) % 65536
  let v := v1 ||| ((s.mem.get sp1) <<< 8)
  let sp2 := (sp1 + 1) % 65536
  (v, { s with sp := sp2 })

/-- `BitVec::from_bytes(&[byte]).get(i)`: the `bit_vec` crate indexes
from the most significant bit, so index `i` is bit `7 - i` of the byte. -/
def bvGet (byte i : Nat) : Bool := byte.testBit (7 - i)

/-- `flags.set(i, b)` on an 8-bit `BitVec` followed by `to_bytes()[0]`:
sets or clears bit `7 - i` of the byte (the byte stays below 256 when
the input is). -/
def bvSet (byte i : Nat) (b : Bool) : Nat :=
  if b then byte ||| (1 <<< (7 - i)) else byte &&& (255 - (1 <<< (7 - i)))

/-- `op_cp` from `src/cpu.rs:301-335` for the `CP d8` form (opcode
0xFE): `pc` steps over the opcode, `reg_a` is read from `A`, the `d8`
operand is the byte at the new `pc` (consuming it), and the flags are
computed exactly as the source does — note line 326 subtracts the masked
operand from the *unmasked* accumulator (u16 wrapping), and line 331
sets the carry from `reg_a > data`. -/
def op_cp_d8 (s : GBCpuSt) : GBCpuSt :=
  let pc1 := (s.pc + 1) % 65536
  let reg_a := s.regs.read "A"
  let data := s.mem.get pc1
  let pc2 := (pc1 + 1) % 65536
  let flags0 := s.regs.read "F"
  let f1 := bvSet flags0 1 true
  let f2 := bvSet f1 0 (reg_a == data)
  let half_carry := ((reg_a + 65536 - (data &&& 15)) % 65536) &&& 240 != 0
  let f3 := bvSet f2 2 half_carry
  let f4 := bvSet f3 3 (decide (reg_a > data))
  { s with pc := pc2, regs := s.regs.write "F" f4 }

/-- `op_inc` from `src/cpu.rs:419-483`, register (non-indirect) arm for
a single-letter register name (`change_flags` is true, line 432).  The
Zero flag on line 471 tests the *16-bit* temporary after the increment,
not the 8-bit value stored back into the register. -/
def op_inc_r8 (s : GBCpuSt) (name : String) : GBCpuSt :=
  let pc1 := (s.pc + 1) % 65536
  let flags0 := s.regs.read "F"
  let f1 := bvSet flags0 1 false
  let reg_value := s.regs.read name
  let half_carry := ((reg_value &&& 15) + 1) &&& 16 == 16
  let reg2 := (reg_value + 1) % 65536
  let regs1 := s.regs.write name reg2
  let f2 := bvSet f1 0 (reg2 == 0)
  let f3 := bvSet f2 2 half_carry
  { s with pc := pc1, regs := regs1.write "F" f3 }

/-- `op_dec` from `src/cpu.rs:341-405`, register (non-indirect) arm for
a single-letter register name.  The u16 subtractions on lines 385 and
387 wrap (release semantics). -/
def op_dec_r8 (s : GBCpuSt) (name : String) : GBCpuSt :=
  let pc1 := (s.pc + 1) % 65536
  let flags0 := s.regs.read "F"
  let f1 := bvSet flags0 1 true
  let reg_value := s.regs.read name
  let half_carry := ((reg_value + 65536 - 1) % 65536) &&& 240 != 0
  let reg2 := (reg_value + 65536 - 1) % 65536
  let regs1 := s.regs.write name reg2
  let f2 := bvSet f1 0 (reg2 == 0)
  let f3 := bvSet f2 2 half_carry
  { s with pc := pc1, regs := regs1.write "F" f3 }

/-- `op_ld` from `src/cpu.rs:555-603` for the `LD rr,d16` forms (`rr` a
16-bit register name): `pc` steps over the opcode, `arg_parse("d16")`
reads the little-endian immediate at `pc`/`pc+1` (`src/cpu.rs:163-171`),
`data_parse` consumes the two bytes, and the register is written. -/
def op_ld_r16_d16 (s : GBCpuSt) (name : String) : GBCpuSt :=
  let pc1 := (s.pc + 1) % 65536
  let lo := s.mem.get pc1
  let hi := s.mem.get ((pc1 + 1) % 65536)
  let data := lo ||| (hi <<< 8)
  let pc2 := (pc1 + 2) % 65536
  { s with pc := pc2, regs := s.regs.write name data }

/-- `op_ld` for `LD SP,d16` (opcode 0x31): the destination arm is
`GBData::SP` (`src/cpu.rs:567-572`). -/
def op_ld_sp_d16 (s : GBCpuSt) : GBCpuSt :=
  let pc1 := (s.pc + 1) % 65536
  let lo := s.mem.get pc1
  let hi := s.mem.get ((pc1 + 1) % 65536)
  let data := lo ||| (hi <<< 8)
  let pc2 := (pc1 + 2) % 65536
  { s with pc := pc2, sp := data }

/-- `op_call` from `src/cpu.rs:253-291` for the unconditional
`CALL a16` (opcode 0xCD, `args = ["a16"]`): the condition match falls to
the default `true` arm, the destination is the little-endian immediate,
`pc` ends up past the 3-byte instruction, and that return address is
pushed before jumping. -/
def op_call_a16 (s : GBCpuSt) : GBCpuSt :=
  let pc1 := (s.pc + 1) % 65536
  let lo := s.mem.get pc1
  let hi := s.mem.get ((pc1 + 1) % 65536)
  let dest := lo ||| (hi <<< 8)
  let pc2 := (pc1 + 2) % 65536
  let s1 := stack_push { s with pc := pc2 } pc2
  { s1 with pc := dest }

/-- `op_ret` from `src/cpu.rs:668-709` for the unconditional `RET`
(opcode 0xC9, empty `args`, condition `true`): `pc` steps over the
opcode, the destination is popped, and `pc` is overwritten with it. -/
def op_ret (s : GBCpuSt) : GBCpuSt :=
  let pc1 := (s.pc + 1) % 65536
  let popped := stack_pop { s with pc := pc1 }
  { popped.2 with pc := popped.1 }

/-- `op_bit` from `src/cpu.rs:820-853` for a direct register operand:
the operand byte is the register value truncated `as u8` (line 835), the
flags byte likewise (line 836); H is set, N cleared, and Z set from
`bits.get(7-bit)`, i.e. from bit `bit` of the operand (valid for
`bit ≤ 7`; larger values would panic in the source). -/
def op_bit_r8 (s : GBCpuSt) (bit : Nat) (name : String) : GBCpuSt :=
  let pc1 := (s.pc + 1) % 65536
  let data := s.regs.read name % 256
  let flags := s.regs.read "F" % 256
  let f1 := bvSet flags 2 true
  let f2 := bvSet f1 1 false
  let f3 := bvSet f2 0 (! data.testBit bit)
  { s with pc := pc1, regs := s.regs.write "F" f3 }

/-! ## Pixel timing state machine from `src/gpu.rs`.

`GBGpu` holds `mode`, `cycles` and `drawing_line`; the automaton also
touches three memory-mapped bytes of the CPU it is stepped with: the
interrupt-enable byte `0xFFFF` and interrupt-request byte `0xFF0F`
(through `is_interrupt_enabled`/`set_interrupt_request`,
`src/cpu.rs:74-97`, which address bit `ipos` counted from the least
significant bit) and the scanline register.  Those three bytes are
carried here as the fields `ie`, `irq` and `ly`.  `step` takes the cycle
count it consumes (`cpu.get_last_op_cycles()` at the call site) as an
argument. -/

inductive GBGpuMode where
  | HBLANK
  | VBLANK
  | OAM
  | VRAM
deriving DecidableEq

structure GBGpuSt where
  mode : GBGpuMode
  cycles : Nat
  drawing_line : Nat
  ly : Nat
  ie : Nat
  irq : Nat
deriving DecidableEq

/-- Modelled from the spec: `cpu.set_memreg_ly` (called at
`src/gpu.rs:48/74/81` but not defined under `src/`) writes the current
line to the scanline register, "memory-mapped byte reflecting the
currently rendered line" (§6, glossary); the argument is truncated
`as u8` at the call site. -/
def setMemregLy (s : GBGpuSt) (line : Nat) : GBGpuSt :=
  { s with ly := line % 256 }

/-- `GBGpu::step` from `src/gpu.rs:34-104`, with the added cycles as a
parameter.  The vblank interrupt is requested (bit 0 of the request
byte, when bit 0 of the enable byte is set) at the HBLANK transition
that makes `drawing_line` equal to 143. -/
def GBGpu.step (s : GBGpuSt) (c : Nat) : GBGpuSt :=
  let cy := s.cycles + c
  match s.mode with
  | GBGpuMode.HBLANK =>
    if cy ≥ 204 then
      let line := s.drawing_line + 1
      let s1 := setMemregLy { s with cycles := 0, drawing_line := line } line
      if line = 143 then
        let s2 := if s1.ie.testBit 0 then { s1 with irq := s1.irq ||| 1 } else s1
        { s2 with mode := GBGpuMode.VBLANK }
      else
        { s1 with mode := GBGpuMode.OAM }
    else { s with cycles := cy }
  | GBGpuMode.VBLANK =>
    if cy ≥ 456 then
      let line := s.drawing_line + 1
      let s1 := setMemregLy { s with cycles := 0, drawing_line := line } line
      if line > 153 then
        setMemregLy { s1 with mode := GBGpuMode.OAM, drawing_line := 0 } 0
      else s1
    else { s with cycles := cy }
  | GBGpuMode.OAM =>
    if cy ≥ 80 then { s with cycles := 0, mode := GBGpuMode.VRAM }
    else { s with cycles := cy }
  | GBGpuMode.VRAM =>
    if cy ≥ 172 then { s with cycles := 0, mode := GBGpuMode.HBLANK }
    else { s with cycles := cy }

/-- Iterate `GBGpu.step` with a fixed per-step cycle increment. -/
def gpuIter : Nat → Nat → GBGpuSt → GBGpuSt
  | 0, _, s => s
  | n + 1, c, s => gpuIter n c (GBGpu.step s c)

/-! ## Arithmetic helper lemmas -/

theorem nat_and_255 (n : Nat) : n &&& 255 = n % 256 := by
  have h := Nat.and_pow_two_sub_one_eq_mod n 8
  norm_num at h
  exact h

theorem nat_lor_shl8 (b a : Nat) (ha : a < 256) : (b <<< 8) ||| a = b * 256 + a := by
  have hb : (256 : Nat) = 2 ^ 8 := by norm_num
  apply Nat.eq_of_testBit_eq
  intro i
  rw [Nat.testBit_lor]
  have hadd : b * 256 + a = 2 ^ 8 * b + a := by rw [hb]; ring
  rw [hadd, Nat.testBit_mul_pow_two_add b (by rw [hb] at ha; exact ha) i]
  rw [Nat.testBit_shiftLeft]
  by_cases hi : i < 8
  · have : ¬ (i ≥ 8) := by omega
    simp [hi, this]
  · have h8 : i ≥ 8 := by omega
    have hfa : a.testBit i = false := by
      apply Nat.testBit_lt_two_pow
      calc a < 256 := ha
        _ = 2 ^ 8 := hb
        _ ≤ 2 ^ i := Nat.pow_le_pow_right (by norm_num) h8
    simp [hi, h8, hfa]

theorem nat_lor_shl8_comm (a b : Nat) (ha : a < 256) :
    a ||| (b <<< 8) = b * 256 + a := by
  rw [Nat.lor_comm]
  exact nat_lor_shl8 b a ha

theorem nat_and_65280 (n : Nat) (h : n < 65536) : n &&& 65280 = (n >>> 8) <<< 8 := by
  have h65280 : (65280 : Nat) = (2 ^ 8 - 1) <<< 8 := by
    rw [Nat.shiftLeft_eq]; norm_num
  apply Nat.eq_of_testBit_eq
  intro i
  rw [Nat.testBit_and, h65280, Nat.testBit_shiftLeft, Nat.testBit_shiftLeft,
    Nat.testBit_two_pow_sub_one, Nat.testBit_shiftRight]
  by_cases hi : i ≥ 8
  · by_cases hi16 : i < 16
    · have : 8 + (i - 8) = i := by omega
      simp [hi, this, show i - 8 < 8 by omega]
    · have hfn : n.testBit i = false := by
        apply Nat.testBit_lt_two_pow
        calc n < 65536 := h
          _ = 2 ^ 16 := by norm_num
          _ ≤ 2 ^ i := Nat.pow_le_pow_right (by norm_num) (by omega)
      simp [hi, hfn, show ¬ (i - 8 < 8) by omega]
  · simp [hi]

theorem nat_shl8 (b : Nat) : b <<< 8 = b * 256 := by
  rw [Nat.shiftLeft_eq]

theorem nat_shr8 (b : Nat) : b >>> 8 = b / 256 := by
  rw [Nat.shiftRight_eq_div_pow]

theorem nat_lor_lt_256 (a b : Nat) (ha : a < 256) (hb : b < 256) : a ||| b < 256 := by
  have h : (256 : Nat) = 2 ^ 8 := by norm_num
  rw [h] at ha hb ⊢
  exact Nat.or_lt_two_pow ha hb

theorem GBMem.get_lt (m : GBMem) (pos : Nat) : m.get pos < 256 :=
  Nat.mod_lt _ (by norm_num)

theorem GBMem.get_put_same (m : GBMem) (pos byte : Nat) :
    (m.put pos byte).get pos = byte % 256 := by
  simp [GBMem.get, GBMem.put]

theorem GBMem.get_put_other (m : GBMem) (pos pos2 byte : Nat) (h : pos2 ≠ pos) :
    (m.put pos byte).get pos2 = m.get pos2 := by
  simp [GBMem.get, GBMem.put, h]

/-! ## Computation lemmas for the register-set embedding -/

theorem put8_gbMap_A (af bc de hl v : Nat) :
    put8 (gbMap af bc de hl) "A" v
      = some (gbMap ((af &&& 255) ||| ((v <<< 8) % 65536)) bc de hl) := rfl

theorem put8_gbMap_F (af bc de hl v : Nat) :
    put8 (gbMap af bc de hl) "F" v
      = some (gbMap ((af &&& 65280) ||| (v % 65536)) bc de hl) := rfl

theorem put8_gbMap_B (af bc de hl v : Nat) :
    put8 (gbMap af bc de hl) "B" v
      = some (gbMap af ((bc &&& 255) ||| ((v <<< 8) % 65536)) de hl) := rfl

theorem put8_gbMap_C (af bc de hl v : Nat) :
    put8 (gbMap af bc de hl) "C" v
      = some (gbMap af ((bc &&& 65280) ||| (v % 65536)) de hl) := rfl

theorem put8_gbMap_D (af bc de hl v : Nat) :
    put8 (gbMap af bc de hl) "D" v
      = some (gbMap af bc ((de &&& 255) ||| ((v <<< 8) % 65536)) hl) := rfl

theorem put8_gbMap_E (af bc de hl v : Nat) :
    put8 (gbMap af bc de hl) "E" v
      = some (gbMap af bc ((de &&& 65280) ||| (v % 65536)) hl) := rfl

theorem put8_gbMap_H (af bc de hl v : Nat) :
    put8 (gbMap af bc de hl) "H" v
      = some (gbMap af bc de ((hl &&& 255) ||| ((v <<< 8) % 65536))) := rfl

theorem put8_gbMap_L (af bc de hl v : Nat) :
    put8 (gbMap af bc de hl) "L" v
      = some (gbMap af bc de ((hl &&& 65280) ||| (v % 65536))) := rfl

theorem get16_gbMap_AF (af bc de hl : Nat) : get16 (gbMap af bc de hl) "AF" = af := rfl

theorem get16_gbMap_BC (af bc de hl : Nat) : get16 (gbMap af bc de hl) "BC" = bc := rfl

theorem get16_gbMap_DE (af bc de hl : Nat) : get16 (gbMap af bc de hl) "DE" = de := rfl

theorem get16_gbMap_HL (af bc de hl : Nat) : get16 (gbMap af bc de hl) "HL" = hl := rfl

/-- The value written by the high-alias arm of `put8`, rewritten to the
claim's shape. -/
theorem put8_hi_value (x v : Nat) (hv : v < 256) :
    (x &&& 255) ||| ((v <<< 8) % 65536) = (v <<< 8) ||| (x % 256) := by
  have hm : (v <<< 8) % 65536 = v <<< 8 := by
    apply Nat.mod_eq_of_lt
    rw [nat_shl8]
    omega
  rw [hm, nat_and_255, Nat.lor_comm]

/-- The value written by the low-alias arm of `put8`, rewritten to the
claim's shape. -/
theorem put8_lo_value (x v : Nat) (hx : x < 65536) (hv : v < 256) :
    (x &&& 65280) ||| (v % 65536) = ((x >>> 8) <<< 8) ||| v := by
  rw [nat_and_65280 x hx, Nat.mod_eq_of_lt (by omega : v < 65536)]

theorem hi_lor_low_mod (x v : Nat) (hx : x < 256) :
    ((v <<< 8) ||| x) % 256 = x := by
  rw [nat_lor_shl8 v x hx]
  omega

theorem hi_shl_lor_shr (x v : Nat) (hv : v < 256) :
    (((x >>> 8) <<< 8) ||| v) >>> 8 = x >>> 8 := by
  rw [nat_lor_shl8 (x >>> 8) v hv, nat_shr8, nat_shr8]
  omega

/-! ## Claim theorems -/

/-- Claim C1: for every 16-bit slot (AF, BC, DE, HL) and every 8-bit
value `v`, writing `v` to the slot's high-byte alias via `put8` leaves
the low byte of that slot unchanged, and a subsequent 16-bit read of the
slot returns `(v <<< 8) ||| low` where `low` is the slot's prior low
byte; symmetrically, writing the low alias leaves the high byte
unchanged. -/
theorem put8_alias_half_independence (af bc de hl v : Nat)
    (haf : af < 65536) (hbc : bc < 65536) (hde : de < 65536) (hhl : hl < 65536)
    (hv : v < 256) :
    ((put8 (gbMap af bc de hl) "A" v).map (fun m => get16 m "AF")
        = some ((v <<< 8) ||| (af % 256))
      ∧ (put8 (gbMap af bc de hl) "A" v).map (fun m => get16 m "AF" % 256)
        = some (af % 256)
      ∧ (put8 (gbMap af bc de hl) "F" v).map (fun m => get16 m "AF" >>> 8)
        = some (af >>> 8))
    ∧ ((put8 (gbMap af bc de hl) "B" v).map (fun m => get16 m "BC")
        = some ((v <<< 8) ||| (bc % 256))
      ∧ (put8 (gbMap af bc de hl) "B" v).map (fun m => get16 m "BC" % 256)
        = some (bc % 256)
      ∧ (put8 (gbMap af bc de hl) "C" v).map (fun m => get16 m "BC" >>> 8)
        = some (bc >>> 8))
    ∧ ((put8 (gbMap af bc de hl) "D" v).map (fun m => get16 m "DE")
        = some ((v <<< 8) ||| (de % 256))
      ∧ (put8 (gbMap af bc de hl) "D" v).map (fun m => get16 m "DE" % 256)
        = some (de % 256)
      ∧ (put8 (gbMap af bc de hl) "E" v).map (fun m => get16 m "DE" >>> 8)
        = some (de >>> 8))
    ∧ ((put8 (gbMap af bc de hl) "H" v).map (fun m => get16 m "HL")
        = some ((v <<< 8) ||| (hl % 256))
      ∧ (put8 (gbMap af bc de hl) "H" v).map (fun m => get16 m "HL" % 256)
        = some (hl % 256)
      ∧ (put8 (gbMap af bc de hl) "L" v).map (fun m => get16 m "HL" >>> 8)
        = some (hl >>> 8)) := by
  refine ⟨⟨?_, ?_, ?_⟩, ⟨?_, ?_, ?_⟩, ⟨?_, ?_, ?_⟩, ⟨?_, ?_, ?_⟩⟩
  · rw [put8_gbMap_A]
    exact congrArg some (put8_hi_value af v hv)
  · rw [put8_gbMap_A]
    refine congrArg some ?_
    rw [put8_hi_value af v hv]
    exact hi_lor_low_mod (af % 256) v (Nat.mod_lt _ (by norm_num))
  · rw [put8_gbMap_F]
    refine congrArg some ?_
    rw [put8_lo_value af v haf hv]
    exact hi_shl_lor_shr af v hv
  · rw [put8_gbMap_B]
    exact congrArg some (put8_hi_value bc v hv)
  · rw [put8_gbMap_B]
    refine congrArg some ?_
    rw [put8_hi_value bc v hv]
    exact hi_lor_low_mod (bc % 256) v (Nat.mod_lt _ (by norm_num))
  · rw [put8_gbMap_C]
    refine congrArg some ?_
    rw [put8_lo_value bc v hbc hv]
    exact hi_shl_lor_shr bc v hv
  · rw [put8_gbMap_D]
    exact congrArg some (put8_hi_value de v hv)
  · rw [put8_gbMap_D]
    refine congrArg some ?_
    rw [put8_hi_value de v hv]
    exact hi_lor_low_mod (de % 256) v (Nat.mod_lt _ (by norm_num))
  · rw [put8_gbMap_E]
    refine congrArg some ?_
    rw [put8_lo_value de v hde hv]
    exact hi_shl_lor_shr de v hv
  · rw [put8_gbMap_H]
    exact congrArg some (put8_hi_value hl v hv)
  · rw [put8_gbMap_H]
    refine congrArg some ?_
    rw [put8_hi_value hl v hv]
    exact hi_lor_low_mod (hl % 256) v (Nat.mod_lt _ (by norm_num))
  · rw [put8_gbMap_L]
    refine congrArg some ?_
    rw [put8_lo_value hl v hhl hv]
    exact hi_shl_lor_shr hl v hv

/-- Witness for C1 at AF = 0x1234, BC = 0x2345, DE = 0x3456,
HL = 0x4567, v = 0xAB. -/
theorem put8_alias_half_independence_witness :
    (put8 (gbMap 4660 9029 13398 17767) "A" 171).map (fun m => get16 m "AF")
      = some ((171 <<< 8) ||| (4660 % 256)) :=
  (put8_alias_half_independence 4660 9029 13398 17767 171 (by decide) (by decide)
    (by decide) (by decide) (by decide)).1.1

/-- Counterexample to Claim C7: with BC = 0x0100 (so B = 1 and C = 0),
`get16` on the low alias "C" returns the full 16-bit parent value 256 —
not the zero-extended 8-bit half (which is 0), and not a value in
[0,255]. -/
theorem get16_low_alias_counterexample :
    get16 (gbMap 0 256 0 0) "C" = 256 ∧ ¬ (256 ≤ 255) := by decide

/-- Claim C7 as amended: `get8` returns the unsigned zero-extended
value of the aliased 8-bit half for every single-letter alias; `get16`
returns the full 16-bit value for a slot name and the zero-extended
high byte for a high alias, but for a low alias it returns the full
16-bit value of the parent slot. -/
theorem get_register_amended (af bc de hl : Nat)
    (haf : af < 65536) (hbc : bc < 65536) (hde : de < 65536) (hhl : hl < 65536) :
    (get16 (gbMap af bc de hl) "AF" = af ∧ get16 (gbMap af bc de hl) "BC" = bc
      ∧ get16 (gbMap af bc de hl) "DE" = de ∧ get16 (gbMap af bc de hl) "HL" = hl)
    ∧ (get8 (gbMap af bc de hl) "A" = af >>> 8 ∧ get8 (gbMap af bc de hl) "F" = af % 256
      ∧ get8 (gbMap af bc de hl) "B" = bc >>> 8 ∧ get8 (gbMap af bc de hl) "C" = bc % 256
      ∧ get8 (gbMap af bc de hl) "D" = de >>> 8 ∧ get8 (gbMap af bc de hl) "E" = de % 256
      ∧ get8 (gbMap af bc de hl) "H" = hl >>> 8 ∧ get8 (gbMap af bc de hl) "L" = hl % 256)
    ∧ (get16 (gbMap af bc de hl) "A" = af >>> 8 ∧ get16 (gbMap af bc de hl) "B" = bc >>> 8
      ∧ get16 (gbMap af bc de hl) "D" = de >>> 8 ∧ get16 (gbMap af bc de hl) "H" = hl >>> 8)
    ∧ (get16 (gbMap af bc de hl) "F" = af ∧ get16 (gbMap af bc de hl) "C" = bc
      ∧ get16 (gbMap af bc de hl) "E" = de ∧ get16 (gbMap af bc de hl) "L" = hl) := by
  have m8 : ∀ x : Nat, x < 65536 → (x >>> 8) % 256 = x >>> 8 := by
    intro x hx
    rw [nat_shr8]
    omega
  exact ⟨⟨rfl, rfl, rfl, rfl⟩,
    ⟨m8 af haf, rfl, m8 bc hbc, rfl, m8 de hde, rfl, m8 hl hhl, rfl⟩,
    ⟨rfl, rfl, rfl, rfl⟩, ⟨rfl, rfl, rfl, rfl⟩⟩

/-- Witness for the amended C7 at AF = 0x1234, BC = 0x2345,
DE = 0x3456, HL = 0x4567. -/
theorem get_register_amended_witness :
    get8 (gbMap 4660 9029 13398 17767) "A" = 4660 >>> 8 :=
  (get_register_amended 4660 9029 13398 17767 (by decide) (by decide)
    (by decide) (by decide)).2.1.1

/-- Counterexample to Claim C9: a `get16` lookup with a name absent
from the register map does not abort — it completes normally and
returns the default value 0. -/
theorem get16_unknown_counterexample :
    (gbMap 1 2 3 4).lookup "X" = none ∧ get16 (gbMap 1 2 3 4) "X" = 0 := by decide

/-- Claim C9 as amended: a register-file read with a name that is not
present in the map logs the offending name and returns the diagnostic
fallback value 0; the operation completes normally rather than
aborting. -/
theorem get16_unknown_returns_zero (af bc de hl : Nat) (name : String)
    (h : (gbMap af bc de hl).lookup name = none) :
    get16 (gbMap af bc de hl) name = 0 := by
  simp [get16, get16F, h]

/-- Witness for the amended C9 at the absent name "X". -/
theorem get16_unknown_returns_zero_witness :
    get16 (gbMap 1 2 3 4) "X" = 0 :=
  get16_unknown_returns_zero 1 2 3 4 "X" (by decide)

/-- The `put8` search loop makes no progress once the current name is
absent from the map: for every fuel bound it fails to reach its
`break`. -/
theorem put8F_none_of_lookup_none :
    ∀ (fuel : Nat) (regs : RegMap) (data : Nat) (cur : String) (tpos : Nat),
      regs.lookup cur = none → put8F fuel regs data cur tpos = none
  | 0, _, _, _, _, _ => rfl
  | fuel + 1, regs, data, cur, tpos, h => by
    simp only [put8F, put8Once, h]
    exact put8F_none_of_lookup_none fuel regs data cur tpos h

/-- The `put16` search loop makes no progress once the current name is
absent from the map. -/
theorem put16F_none_of_lookup_none :
    ∀ (fuel : Nat) (regs : RegMap) (data : Nat) (cur : String) (tpos : Nat),
      regs.lookup cur = none → put16F fuel regs data cur tpos = none
  | 0, _, _, _, _, _ => rfl
  | fuel + 1, regs, data, cur, tpos, h => by
    simp only [put16F, put16Once, h]
    exact put16F_none_of_lookup_none fuel regs data cur tpos h

/-- Claim C10: `put8` and `put16` terminate (within the loop's actual
depth, 2 iterations) for every register name present in the program's
map; for a name absent from the map the `None` branch of the `'search`
loop neither breaks nor returns, so no amount of fuel makes the loop
terminate. -/
theorem put_loop_termination (af bc de hl data : Nat) (name : String) :
    (name ∈ regNames →
      (put8 (gbMap af bc de hl) name data).isSome = true
        ∧ (put16 (gbMap af bc de hl) name data).isSome = true)
    ∧ ((gbMap af bc de hl).lookup name = none →
      ∀ fuel, put8F fuel (gbMap af bc de hl) data name 0 = none
        ∧ put16F fuel (gbMap af bc de hl) data name 0 = none) := by
  constructor
  · intro h
    fin_cases h <;> exact ⟨rfl, rfl⟩
  · intro h fuel
    exact ⟨put8F_none_of_lookup_none fuel _ data name 0 h,
      put16F_none_of_lookup_none fuel _ data name 0 h⟩

/-- Witness for C10: the present name "A" terminates, the absent name
"X" still has not terminated after 1000 loop iterations. -/
theorem put_loop_termination_witness :
    (put8 (gbMap 1 2 3 4) "A" 7).isSome = true
      ∧ put8F 1000 (gbMap 1 2 3 4) 7 "X" 0 = none :=
  ⟨((put_loop_termination 1 2 3 4 7 "A").1 (by decide)).1,
    ((put_loop_termination 1 2 3 4 7 "X").2 (by decide) 1000).1⟩

/-- Claim C2 (code bug, evaluation at the failing inputs): `CP d8` with
A = 2 against operand 1 leaves A unchanged but *sets* the Carry flag
(bit 4) although 2 < 1 is false — the source sets carry from
`reg_a > data` (cpu.rs:331) while its own comment says "Set if A < n";
and `CP d8` with A = 0x10 against operand 1 leaves HalfCarry (bit 5)
clear although the low nibble of A (0) is less than the low nibble of
the operand (1). -/
theorem op_cp_flag_divergence :
    ((op_cp_d8 ⟨0, 0, ⟨fun p => if p = 1 then 1 else 0⟩, ⟨512, 0, 0, 0⟩⟩).regs.read "A" = 2
      ∧ ((op_cp_d8 ⟨0, 0, ⟨fun p => if p = 1 then 1 else 0⟩, ⟨512, 0, 0, 0⟩⟩).regs.read "F").testBit 4 = true
      ∧ ¬ ((2 : Nat) < 1))
    ∧ (((op_cp_d8 ⟨0, 0, ⟨fun p => if p = 1 then 1 else 0⟩, ⟨4096, 0, 0, 0⟩⟩).regs.read "F").testBit 5 = false
      ∧ (16 &&& 15 : Nat) < (1 &&& 15 : Nat)) := by decide

/-- Claim C3 (code bug, evaluation at the failing input): `INC B` with
B = 0xFF and the Carry flag set wraps B to 0 and sets HalfCarry with
Carry untouched, but leaves the Zero flag *clear* — the source tests
`reg_value == 0x0` on the 16-bit temporary 0x100 (cpu.rs:471), not on
the 8-bit value stored back.  `DEC B` with B = 0 behaves as the claim
says: wraps to 0xFF, clears Zero, sets HalfCarry, leaves Carry. -/
theorem op_inc_dec_flag_divergence :
    ((op_inc_r8 ⟨0, 0, ⟨fun _ => 0⟩, ⟨16, 65280, 0, 0⟩⟩ "B").regs.read "B" = 0
      ∧ ((op_inc_r8 ⟨0, 0, ⟨fun _ => 0⟩, ⟨16, 65280, 0, 0⟩⟩ "B").regs.read "F").testBit 7 = false
      ∧ ((op_inc_r8 ⟨0, 0, ⟨fun _ => 0⟩, ⟨16, 65280, 0, 0⟩⟩ "B").regs.read "F").testBit 5 = true
      ∧ ((op_inc_r8 ⟨0, 0, ⟨fun _ => 0⟩, ⟨16, 65280, 0, 0⟩⟩ "B").regs.read "F").testBit 4 = true)
    ∧ ((op_dec_r8 ⟨0, 0, ⟨fun _ => 0⟩, ⟨0, 0, 0, 0⟩⟩ "B").regs.read "B" = 255
      ∧ ((op_dec_r8 ⟨0, 0, ⟨fun _ => 0⟩, ⟨0, 0, 0, 0⟩⟩ "B").regs.read "F").testBit 7 = false
      ∧ ((op_dec_r8 ⟨0, 0, ⟨fun _ => 0⟩, ⟨0, 0, 0, 0⟩⟩ "B").regs.read "F").testBit 5 = true
      ∧ ((op_dec_r8 ⟨0, 0, ⟨fun _ => 0⟩, ⟨0, 0, 0, 0⟩⟩ "B").regs.read "F").testBit 4 = false) := by
  decide

/-- Claim C5: for each of `LD BC,d16` / `LD DE,d16` / `LD HL,d16` /
`LD SP,d16`, with memory holding `[opcode, lo, hi]` at `pc`, after
execution the target register (or the stack pointer) equals
`lo ||| (hi <<< 8)` and `pc` has advanced by exactly 3. -/
theorem op_ld_d16_spec (sp pc af bc de hl : Nat) (mem : GBMem)
    (hpc : pc + 3 < 65536) :
    ((op_ld_r16_d16 ⟨sp, pc, mem, ⟨af, bc, de, hl⟩⟩ "BC").regs.read "BC"
        = mem.get (pc + 1) ||| (mem.get (pc + 2) <<< 8)
      ∧ (op_ld_r16_d16 ⟨sp, pc, mem, ⟨af, bc, de, hl⟩⟩ "BC").pc = pc + 3)
    ∧ ((op_ld_r16_d16 ⟨sp, pc, mem, ⟨af, bc, de, hl⟩⟩ "DE").regs.read "DE"
        = mem.get (pc + 1) ||| (mem.get (pc + 2) <<< 8)
      ∧ (op_ld_r16_d16 ⟨sp, pc, mem, ⟨af, bc, de, hl⟩⟩ "DE").pc = pc + 3)
    ∧ ((op_ld_r16_d16 ⟨sp, pc, mem, ⟨af, bc, de, hl⟩⟩ "HL").regs.read "HL"
        = mem.get (pc + 1) ||| (mem.get (pc + 2) <<< 8)
      ∧ (op_ld_r16_d16 ⟨sp, pc, mem, ⟨af, bc, de, hl⟩⟩ "HL").pc = pc + 3)
    ∧ ((op_ld_sp_d16 ⟨sp, pc, mem, ⟨af, bc, de, hl⟩⟩).sp
        = mem.get (pc + 1) ||| (mem.get (pc + 2) <<< 8)
      ∧ (op_ld_sp_d16 ⟨sp, pc, mem, ⟨af, bc, de, hl⟩⟩).pc = pc + 3) := by
  have h1 : (pc + 1) % 65536 = pc + 1 := by omega
  have h2 : (pc + 1 + 1) % 65536 = pc + 2 := by omega
  have h3 : ((pc + 1) % 65536 + 2) % 65536 = pc + 3 := by omega
  have hdata : (mem.get (pc + 1) ||| (mem.get (pc + 2) <<< 8)) % 65536
      = mem.get (pc + 1) ||| (mem.get (pc + 2) <<< 8) := by
    apply Nat.mod_eq_of_lt
    rw [nat_lor_shl8_comm _ _ (GBMem.get_lt mem (pc + 1))]
    have ha := GBMem.get_lt mem (pc + 1)
    have hb := GBMem.get_lt mem (pc + 2)
    omega
  refine ⟨⟨?_, ?_⟩, ⟨?_, ?_⟩, ⟨?_, ?_⟩, ⟨?_, ?_⟩⟩
  · have e : (op_ld_r16_d16 ⟨sp, pc, mem, ⟨af, bc, de, hl⟩⟩ "BC").regs.read "BC"
        = (mem.get ((pc + 1) % 65536)
            ||| (mem.get (((pc + 1) % 65536 + 1) % 65536) <<< 8)) % 65536 := rfl
    rw [e, h1, h2, hdata]
  · have e : (op_ld_r16_d16 ⟨sp, pc, mem, ⟨af, bc, de, hl⟩⟩ "BC").pc
        = ((pc + 1) % 65536 + 2) % 65536 := rfl
    rw [e, h3]
  · have e : (op_ld_r16_d16 ⟨sp, pc, mem, ⟨af, bc, de, hl⟩⟩ "DE").regs.read "DE"
        = (mem.get ((pc + 1) % 65536)
            ||| (mem.get (((pc + 1) % 65536 + 1) % 65536) <<< 8)) % 65536 := rfl
    rw [e, h1, h2, hdata]
  · have e : (op_ld_r16_d16 ⟨sp, pc, mem, ⟨af, bc, de, hl⟩⟩ "DE").pc
        = ((pc + 1) % 65536 + 2) % 65536 := rfl
    rw [e, h3]
  · have e : (op_ld_r16_d16 ⟨sp, pc, mem, ⟨af, bc, de, hl⟩⟩ "HL").regs.read "HL"
        = (mem.get ((pc + 1) % 65536)
            ||| (mem.get (((pc + 1) % 65536 + 1) % 65536) <<< 8)) % 65536 := rfl
    rw [e, h1, h2, hdata]
  · have e : (op_ld_r16_d16 ⟨sp, pc, mem, ⟨af, bc, de, hl⟩⟩ "HL").pc
        = ((pc + 1) % 65536 + 2) % 65536 := rfl
    rw [e, h3]
  · have e : (op_ld_sp_d16 ⟨sp, pc, mem, ⟨af, bc, de, hl⟩⟩).sp
        = mem.get ((pc + 1) % 65536)
            ||| (mem.get (((pc + 1) % 65536 + 1) % 65536) <<< 8) := rfl
    rw [e, h1, h2]
  · have e : (op_ld_sp_d16 ⟨sp, pc, mem, ⟨af, bc, de, hl⟩⟩).pc
        = ((pc + 1) % 65536 + 2) % 65536 := rfl
    rw [e, h3]

/-- Witness for C5 at pc = 0 with bytes lo = 0x34, hi = 0x12. -/
theorem op_ld_d16_spec_witness :
    (op_ld_r16_d16 ⟨0, 0, ⟨fun p => if p = 1 then 52 else if p = 2 then 18 else 0⟩,
        ⟨0, 0, 0, 0⟩⟩ "BC").regs.read "BC"
      = GBMem.get ⟨fun p => if p = 1 then 52 else if p = 2 then 18 else 0⟩ 1
        ||| (GBMem.get ⟨fun p => if p = 1 then 52 else if p = 2 then 18 else 0⟩ 2 <<< 8) :=
  (op_ld_d16_spec 0 0 0 0 0 0
    ⟨fun p => if p = 1 then 52 else if p = 2 then 18 else 0⟩ (by decide)).1.1

theorem testBit_mod256 (x i : Nat) (hi : i < 8) : (x % 256).testBit i = x.testBit i := by
  rw [show (256 : Nat) = 2 ^ 8 by norm_num, Nat.testBit_mod_two_pow]
  simp [hi]

theorem bvSet_lt_256 (x i : Nat) (b : Bool) (hx : x < 256) : bvSet x i b < 256 := by
  unfold bvSet
  cases b
  · simp only [Bool.false_eq_true, if_false]
    exact Nat.lt_of_le_of_lt (Nat.and_le_left) hx
  · simp only [if_true]
    apply nat_lor_lt_256 x _ hx
    have h7 : 7 - i ≤ 7 := by omega
    calc 1 <<< (7 - i) = 2 ^ (7 - i) := by rw [Nat.shiftLeft_eq]; ring
      _ ≤ 2 ^ 7 := Nat.pow_le_pow_right (by norm_num) h7
      _ < 256 := by norm_num

/-- Claim C8: for every bit position `b < 8` and every operand register
value, `BIT b,r` sets Zero (bit 7 of F) iff bit `b` of the resolved
8-bit operand is 0, always sets HalfCarry (bit 5), always clears
Subtract (bit 6), and leaves Carry (bit 4) exactly as it was.  The
hypothesis `b < 8` matches the source, where `bits.get(7-bit).unwrap()`
panics for larger `b`. -/
theorem op_bit_flags_spec (s : GBCpuSt) (b : Nat) (name : String) (hb : b < 8) :
    ((op_bit_r8 s b name).regs.read "F").testBit 7
        = ! ((s.regs.read name % 256).testBit b)
    ∧ ((op_bit_r8 s b name).regs.read "F").testBit 5 = true
    ∧ ((op_bit_r8 s b name).regs.read "F").testBit 6 = false
    ∧ ((op_bit_r8 s b name).regs.read "F").testBit 4 = (s.regs.read "F").testBit 4 := by
  have hflt : s.regs.read "F" % 256 < 256 := Nat.mod_lt _ (by norm_num)
  have h3lt : bvSet (bvSet (bvSet (s.regs.read "F" % 256) 2 true) 1 false) 0
      (! (s.regs.read name % 256).testBit b) < 256 :=
    bvSet_lt_256 _ _ _ (bvSet_lt_256 _ _ _ (bvSet_lt_256 _ _ _ hflt))
  have hF : (op_bit_r8 s b name).regs.read "F"
      = bvSet (bvSet (bvSet (s.regs.read "F" % 256) 2 true) 1 false) 0
          (! (s.regs.read name % 256).testBit b) := by
    have e : (op_bit_r8 s b name).regs.read "F"
        = ((((s.regs.af >>> 8) <<< 8)
            ||| (bvSet (bvSet (bvSet (s.regs.read "F" % 256) 2 true) 1 false) 0
              (! (s.regs.read name % 256).testBit b) % 256)) % 256) := rfl
    rw [e, hi_lor_low_mod _ _ (Nat.mod_lt _ (by norm_num)), Nat.mod_eq_of_lt h3lt]
  rw [hF]
  unfold bvSet
  cases hz : (s.regs.read name % 256).testBit b <;>
    simp [hz, Nat.testBit_lor, Nat.testBit_and, testBit_mod256,
      show Nat.testBit 32 7 = false by decide, show Nat.testBit 32 6 = false by decide,
      show Nat.testBit 32 5 = true by decide, show Nat.testBit 32 4 = false by decide,
      show Nat.testBit 191 7 = true by decide, show Nat.testBit 191 6 = false by decide,
      show Nat.testBit 191 5 = true by decide, show Nat.testBit 191 4 = true by decide,
      show Nat.testBit 128 7 = true by decide, show Nat.testBit 128 6 = false by decide,
      show Nat.testBit 128 5 = false by decide, show Nat.testBit 128 4 = false by decide,
      show Nat.testBit 127 7 = false by decide, show Nat.testBit 127 6 = true by decide,
      show Nat.testBit 127 5 = true by decide, show Nat.testBit 127 4 = true by decide]

/-- Witness for C8: `BIT 7,H` with HL = 0x8000 (bit 7 of H set) and the
Carry flag set in F. -/
theorem op_bit_flags_spec_witness :
    ((op_bit_r8 ⟨0, 0, ⟨fun _ => 0⟩, ⟨16, 0, 0, 32768⟩⟩ 7 "H").regs.read "F").testBit 7
      = ! (((⟨16, 0, 0, 32768⟩ : RegFile).read "H" % 256).testBit 7) :=
  (op_bit_flags_spec ⟨0, 0, ⟨fun _ => 0⟩, ⟨16, 0, 0, 32768⟩⟩ 7 "H" (by decide)).1

/-- Popping immediately after pushing returns the pushed 16-bit value:
the push writes the high byte at `sp-1` and the low byte at `sp-2`, and
the pop reads the low byte at `sp-2` and the high byte at `sp-1`. -/
theorem stack_push_pop_fst (s : GBCpuSt) (v : Nat)
    (hsp1 : 2 ≤ s.sp) (hsp2 : s.sp < 65536) (hv : v < 65536) :
    (stack_pop (stack_push s v)).1 = v := by
  have e : (stack_pop (stack_push s v)).1
      = ((s.mem.put ((s.sp + 65535) % 65536) ((v >>> 8) % 256)).put
          (((s.sp + 65535) % 65536 + 65535) % 65536) (v % 256)).get
          (((s.sp + 65535) % 65536 + 65535) % 65536)
        ||| (((s.mem.put ((s.sp + 65535) % 65536) ((v >>> 8) % 256)).put
          (((s.sp + 65535) % 65536 + 65535) % 65536) (v % 256)).get
          ((((s.sp + 65535) % 65536 + 65535) % 65536 + 1) % 65536) <<< 8) := rfl
  have e1 : (s.sp + 65535) % 65536 = s.sp - 1 := by omega
  have e2 : (s.sp - 1 + 65535) % 65536 = s.sp - 2 := by omega
  have e3 : (s.sp - 2 + 1) % 65536 = s.sp - 1 := by omega
  rw [e, e1, e2, e3, GBMem.get_put_same,
    GBMem.get_put_other _ _ _ _ (by omega : s.sp - 1 ≠ s.sp - 2), GBMem.get_put_same]
  have m1 : v % 256 % 256 = v % 256 := by omega
  have m2 : (v >>> 8) % 256 % 256 = v >>> 8 := by
    rw [nat_shr8]
    omega
  rw [m1, m2, nat_lor_shl8_comm _ _ (by omega : v % 256 < 256), nat_shr8]
  omega

/-- Popping immediately after pushing restores the stack pointer. -/
theorem stack_push_pop_sp (s : GBCpuSt) (v : Nat)
    (hsp1 : 2 ≤ s.sp) (hsp2 : s.sp < 65536) :
    (stack_pop (stack_push s v)).2.sp = s.sp := by
  have e : (stack_pop (stack_push s v)).2.sp
      = ((((s.sp + 65535) % 65536 + 65535) % 65536 + 1) % 65536 + 1) % 65536 := rfl
  rw [e]
  omega

/-- Claim C6: executing an unconditional `CALL a16` (which pushes the
post-fetch return address, high byte first then low byte, with the
stack pointer pre-decremented for each byte) followed by an
unconditional `RET` from the call target restores `pc` to the address
immediately after the CALL's three bytes and restores `sp` to its
pre-CALL value. -/
theorem call_ret_round_trip (sp pc af bc de hl : Nat) (mem : GBMem)
    (hsp1 : 2 ≤ sp) (hsp2 : sp < 65536) (hpc : pc + 3 < 65536) :
    (op_ret (op_call_a16 ⟨sp, pc, mem, ⟨af, bc, de, hl⟩⟩)).pc = pc + 3
    ∧ (op_ret (op_call_a16 ⟨sp, pc, mem, ⟨af, bc, de, hl⟩⟩)).sp = sp := by
  have hpc2 : ((pc + 1) % 65536 + 2) % 65536 = pc + 3 := by omega
  have epc : (op_ret (op_call_a16 ⟨sp, pc, mem, ⟨af, bc, de, hl⟩⟩)).pc
      = (stack_pop (stack_push ⟨sp, ((pc + 1) % 65536 + 2) % 65536, mem, ⟨af, bc, de, hl⟩⟩
          (((pc + 1) % 65536 + 2) % 65536))).1 := rfl
  have esp : (op_ret (op_call_a16 ⟨sp, pc, mem, ⟨af, bc, de, hl⟩⟩)).sp
      = (stack_pop (stack_push ⟨sp, ((pc + 1) % 65536 + 2) % 65536, mem, ⟨af, bc, de, hl⟩⟩
          (((pc + 1) % 65536 + 2) % 65536))).2.sp := rfl
  constructor
  · rw [epc, hpc2]
    exact stack_push_pop_fst _ _ hsp1 hsp2 (by omega)
  · rw [esp]
    exact stack_push_pop_sp _ _ hsp1 hsp2

/-- Witness for C6: `CALL 0x0200` at pc = 0x0100 with sp = 0xFFFE. -/
theorem call_ret_round_trip_witness :
    (op_ret (op_call_a16 ⟨65534, 256,
        ⟨fun p => if p = 257 then 0 else if p = 258 then 2 else 0⟩,
        ⟨0, 0, 0, 0⟩⟩)).pc = 256 + 3
    ∧ (op_ret (op_call_a16 ⟨65534, 256,
        ⟨fun p => if p = 257 then 0 else if p = 258 then 2 else 0⟩,
        ⟨0, 0, 0, 0⟩⟩)).sp = 65534 :=
  call_ret_round_trip 65534 256 0 0 0 0
    ⟨fun p => if p = 257 then 0 else if p = 258 then 2 else 0⟩
    (by decide) (by decide) (by decide)

/-- Counterexample to Claim C4: at the transition that ends line 143
(the counter moves 143 → 144, inside the VBLANK arm) the vblank
interrupt-request bit does *not* become set even though the vblank
enable bit is set — the code raises the request one line earlier, when
the counter reaches 143 at the end of an HBLANK. -/
theorem gpu_vblank_counterexample :
    ((GBGpu.step ⟨GBGpuMode.VBLANK, 0, 143, 143, 1, 0⟩ 456).drawing_line = 144
      ∧ (GBGpu.step ⟨GBGpuMode.VBLANK, 0, 143, 143, 1, 0⟩ 456).irq.testBit 0 = false)
    ∧ (Nat.testBit 1 0 = true
      ∧ (GBGpu.step ⟨GBGpuMode.VBLANK, 0, 143, 143, 1, 0⟩ 456).ie = 1) := by decide

/-- Claim C4 as amended: starting a visible line (line < 143) in OAM
and stepping with increments that land exactly on the phase thresholds,
after 80 + 172 + 204 = 456 accumulated cycles the phase has passed
through OAM, VRAM and HBLANK and the drawing line has increased by
exactly 1 (entering VBLANK when the new line is 143, OAM otherwise);
the vertical-blank interrupt request becomes set if and only if the
enable bit is set at the transition that ends line 142, when the
counter becomes 143; and the vertical-blank phase spans eleven 456-cycle
line periods (counter values 143..153) — after ten of them the phase is
still VBLANK at line 153, and the eleventh wraps the counter to 0 and
returns the phase to OAM. -/
theorem gpu_timing_amended (line ly ie irq : Nat)
    (hline : line < 143) (hirq : irq.testBit 0 = false) :
    ((GBGpu.step ⟨GBGpuMode.OAM, 0, line, ly, ie, irq⟩ 80).mode = GBGpuMode.VRAM
      ∧ (GBGpu.step (GBGpu.step ⟨GBGpuMode.OAM, 0, line, ly, ie, irq⟩ 80) 172).mode
          = GBGpuMode.HBLANK
      ∧ (GBGpu.step (GBGpu.step (GBGpu.step ⟨GBGpuMode.OAM, 0, line, ly, ie, irq⟩ 80) 172) 204).drawing_line
          = line + 1
      ∧ (GBGpu.step (GBGpu.step (GBGpu.step ⟨GBGpuMode.OAM, 0, line, ly, ie, irq⟩ 80) 172) 204).mode
          = (if line + 1 = 143 then GBGpuMode.VBLANK else GBGpuMode.OAM))
    ∧ ((GBGpu.step ⟨GBGpuMode.HBLANK, 0, 142, ly, ie, irq⟩ 204).mode = GBGpuMode.VBLANK
      ∧ (GBGpu.step ⟨GBGpuMode.HBLANK, 0, 142, ly, ie, irq⟩ 204).drawing_line = 143
      ∧ (GBGpu.step ⟨GBGpuMode.HBLANK, 0, 142, ly, ie, irq⟩ 204).irq.testBit 0 = ie.testBit 0)
    ∧ ((gpuIter 10 456 ⟨GBGpuMode.VBLANK, 0, 143, 143, ie, irq⟩).mode = GBGpuMode.VBLANK
      ∧ (gpuIter 10 456 ⟨GBGpuMode.VBLANK, 0, 143, 143, ie, irq⟩).drawing_line = 153
      ∧ (gpuIter 11 456 ⟨GBGpuMode.VBLANK, 0, 143, 143, ie, irq⟩).mode = GBGpuMode.OAM
      ∧ (gpuIter 11 456 ⟨GBGpuMode.VBLANK, 0, 143, 143, ie, irq⟩).drawing_line = 0) := by
  refine ⟨⟨?_, ?_, ?_, ?_⟩, ⟨?_, ?_, ?_⟩, ⟨?_, ?_, ?_, ?_⟩⟩
  · rfl
  · rfl
  · by_cases h143 : line + 1 = 143
    · by_cases hie : ie.testBit 0 <;> simp [GBGpu.step, setMemregLy, h143, hie]
    · simp [GBGpu.step, setMemregLy, h143]
  · by_cases h143 : line + 1 = 143
    · by_cases hie : ie.testBit 0 <;> simp [GBGpu.step, setMemregLy, h143, hie]
    · simp [GBGpu.step, setMemregLy, h143]
  · by_cases hie : ie.testBit 0 <;> simp [GBGpu.step, setMemregLy, hie]
  · by_cases hie : ie.testBit 0 <;> simp [GBGpu.step, setMemregLy, hie]
  · by_cases hie : ie.testBit 0 <;>
      simp [GBGpu.step, setMemregLy, hie, hirq, Nat.testBit_lor]
  · simp [gpuIter, GBGpu.step, setMemregLy]
  · simp [gpuIter, GBGpu.step, setMemregLy]
  · simp [gpuIter, GBGpu.step, setMemregLy]
  · simp [gpuIter, GBGpu.step, setMemregLy]

/-- Witness for the amended C4 at line = 10, enable byte 1, request
byte 0. -/
theorem gpu_timing_amended_witness :
    (GBGpu.step ⟨GBGpuMode.HBLANK, 0, 142, 0, 1, 0⟩ 204).irq.testBit 0
      = Nat.testBit 1 0 :=
  (gpu_timing_amended 10 0 1 0 (by decide) (by decide)).2.1.2.2

end RustGameboy
